import Mathlib

/-!
Verification development for the birthday-progress core
(`custom_components/birthday_progress/sensor.py`).

The embedding models the proleptic Gregorian calendar over natural-number
years, with constructability restricted to Python's year range.  A `DT`
value is
the shallow embedding of a Python `datetime` restricted to whole seconds
(the code only ever builds datetimes from year/month/day/hour/minute/second,
all in one fixed zone, so the timezone field is dropped and `as_local` is
the identity).  A `datetime(...)` construction that can raise `ValueError`
is embedded as an `Option DT` returned by `mkDT`; a `none` that escapes a
function models an uncaught exception.
-/

set_option autoImplicit false

namespace BirthdayProgress

/-- A calendar date-time with whole-second resolution, all fields `ℕ`.
Only years 1 to 9999 are constructible through `mkDT`, as in Python. -/
@[ext]
structure DT where
  year : ℕ
  month : ℕ
  day : ℕ
  hour : ℕ
  minute : ℕ
  second : ℕ
deriving DecidableEq, Repr

/-- Gregorian leap-year rule, as used by Python's `datetime`/`calendar`. -/
def isLeap (y : ℕ) : Prop :=
  y % 4 = 0 ∧ (y % 100 ≠ 0 ∨ y % 400 = 0)

instance (y : ℕ) : Decidable (isLeap y) := by
  unfold isLeap; infer_instance

/-- Length of month `m` (1-based) in year `y`, per the Gregorian calendar. -/
def daysInMonth (y m : ℕ) : ℕ :=
  match m with
  | 2 => if isLeap y then 29 else 28
  | 4 => 30
  | 6 => 30
  | 9 => 30
  | 11 => 30
  | _ => 31

/-- Field-range validity of a `DT`: exactly the checks `datetime(...)` performs
on year (MINYEAR 1 to MAXYEAR 9999), month, day and time-of-day. -/
def wf (dt : DT) : Prop :=
  1 ≤ dt.month ∧ dt.month ≤ 12 ∧ 1 ≤ dt.day ∧ dt.day ≤ daysInMonth dt.year dt.month ∧
    dt.hour ≤ 23 ∧ dt.minute ≤ 59 ∧ dt.second ≤ 59 ∧ 1 ≤ dt.year ∧ dt.year ≤ 9999

instance (dt : DT) : Decidable (wf dt) := by
  unfold wf; infer_instance

/-- A valid input instant: a Python-representable datetime (well-formed
fields, with the year range folded into `wf`). -/
def valid (dt : DT) : Prop :=
  wf dt ∧ 1 ≤ dt.year

instance (dt : DT) : Decidable (valid dt) := by
  unfold valid; infer_instance

/-- Embedding of the `datetime(year, month, day, hour, minute, second)`
constructor: `some` on a valid field combination (year within MINYEAR 1 to
MAXYEAR 9999 included), `none` for `ValueError`. -/
def mkDT (y m d h mi s : ℕ) : Option DT :=
  if 1 ≤ m ∧ m ≤ 12 ∧ 1 ≤ d ∧ d ≤ daysInMonth y m ∧ h ≤ 23 ∧ mi ≤ 59 ∧ s ≤ 59 ∧
      1 ≤ y ∧ y ≤ 9999 then
    some ⟨y, m, d, h, mi, s⟩
  else
    none

/-- Strict lexicographic order on date-times, matching Python's `datetime`
comparison on equal-zone values. -/
def dtLt (a b : DT) : Prop :=
  a.year < b.year ∨ (a.year = b.year ∧
    (a.month < b.month ∨ (a.month = b.month ∧
      (a.day < b.day ∨ (a.day = b.day ∧
        (a.hour < b.hour ∨ (a.hour = b.hour ∧
          (a.minute < b.minute ∨ (a.minute = b.minute ∧
            a.second < b.second)))))))))

instance (a b : DT) : Decidable (dtLt a b) := by
  unfold dtLt; infer_instance

/-- Non-strict lexicographic order on date-times. -/
def dtLe (a b : DT) : Prop :=
  dtLt a b ∨ a = b

instance (a b : DT) : Decidable (dtLe a b) := by
  unfold dtLe; infer_instance

/-- The occurrence of `birth`'s month/day/time-of-day in year `y`
(the candidate the code builds from the current year). -/
def anniv (y : ℕ) (birth : DT) : DT :=
  ⟨y, birth.month, birth.day, birth.hour, birth.minute, birth.second⟩

/-- The `except ValueError` handler of `_calculate_next_birthday`:
the Feb-29 forward scan over the two years `[now.year, now.year + 1]`
(breaking on a candidate strictly after `now`), falling back to Feb 28 of
`now.year + 1`; for a non-Feb-29 birth it rebuilds the date in `now.year + 1`
outside any handler. -/
def feb29NextFallback (birth now : DT) : Option DT :=
  if birth.month = 2 ∧ birth.day = 29 then
    match mkDT now.year 2 29 birth.hour birth.minute birth.second with
    | some c =>
        if dtLt now c then some c
        else
          match mkDT (now.year + 1) 2 29 birth.hour birth.minute birth.second with
          | some c2 =>
              if dtLt now c2 then some c2
              else mkDT (now.year + 1) 2 28 birth.hour birth.minute birth.second
          | none => mkDT (now.year + 1) 2 28 birth.hour birth.minute birth.second
    | none =>
        match mkDT (now.year + 1) 2 29 birth.hour birth.minute birth.second with
        | some c2 =>
            if dtLt now c2 then some c2
            else mkDT (now.year + 1) 2 28 birth.hour birth.minute birth.second
        | none => mkDT (now.year + 1) 2 28 birth.hour birth.minute birth.second
  else
    mkDT (now.year + 1) birth.month birth.day birth.hour birth.minute birth.second

/-- Embedding of `BirthdayProgressSensor._calculate_next_birthday`:
build the candidate in `now`'s year; if it is `≤ now`, rebuild with year + 1
(whose `ValueError` is caught by the same handler); on failure run the
Feb-29 fallback. -/
def nextBirthday (birth now : DT) : Option DT :=
  match mkDT now.year birth.month birth.day birth.hour birth.minute birth.second with
  | some c =>
      if dtLe c now then
        match mkDT (now.year + 1) birth.month birth.day birth.hour birth.minute birth.second with
        | some c2 => some c2
        | none => feb29NextFallback birth now
      else some c
  | none => feb29NextFallback birth now

/-- The `except ValueError` handler of `_calculate_last_birthday`:
the Feb-29 backward scan over `[now.year, now.year - 1]` (breaking on a
candidate `≤ now`), falling back to Feb 28 of `now.year - 1`. -/
def feb29LastFallback (birth now : DT) : Option DT :=
  if birth.month = 2 ∧ birth.day = 29 then
    match mkDT now.year 2 29 birth.hour birth.minute birth.second with
    | some c =>
        if dtLe c now then some c
        else
          match mkDT (now.year - 1) 2 29 birth.hour birth.minute birth.second with
          | some c2 =>
              if dtLe c2 now then some c2
              else mkDT (now.year - 1) 2 28 birth.hour birth.minute birth.second
          | none => mkDT (now.year - 1) 2 28 birth.hour birth.minute birth.second
    | none =>
        match mkDT (now.year - 1) 2 29 birth.hour birth.minute birth.second with
        | some c2 =>
            if dtLe c2 now then some c2
            else mkDT (now.year - 1) 2 28 birth.hour birth.minute birth.second
        | none => mkDT (now.year - 1) 2 28 birth.hour birth.minute birth.second
  else
    mkDT (now.year - 1) birth.month birth.day birth.hour birth.minute birth.second

/-- Embedding of `BirthdayProgressSensor._calculate_last_birthday`:
build the candidate in `now`'s year; if it is strictly after `now`, rebuild
with year - 1; on failure run the Feb-29 fallback. -/
def lastBirthday (birth now : DT) : Option DT :=
  match mkDT now.year birth.month birth.day birth.hour birth.minute birth.second with
  | some c =>
      if dtLt now c then
        match mkDT (now.year - 1) birth.month birth.day birth.hour birth.minute birth.second with
        | some c2 => some c2
        | none => feb29LastFallback birth now
      else some c
  | none => feb29LastFallback birth now

/-- Number of leap years among `1, …, n` (multiples of 4, minus multiples of
100, plus multiples of 400), written to avoid `ℕ` underflow. -/
def leapsUpTo (n : ℕ) : ℕ :=
  n / 4 + n / 400 - n / 100

/-- Days from the start of year 0 (1 BC, a leap year) to the start of year
`y`, in the proleptic Gregorian calendar. -/
def daysBeforeYear (y : ℕ) : ℕ :=
  if y = 0 then 0 else 365 * y + 1 + leapsUpTo (y - 1)

/-- Cumulative days before month `m` in a non-leap year, with `m = 13`
mapping to a full 365-day year. -/
def monthBase (m : ℕ) : ℕ :=
  match m with
  | 1 => 0
  | 2 => 31
  | 3 => 59
  | 4 => 90
  | 5 => 120
  | 6 => 151
  | 7 => 181
  | 8 => 212
  | 9 => 243
  | 10 => 273
  | 11 => 304
  | 12 => 334
  | _ => 365

/-- Cumulative days before month `m` in year `y`. -/
def daysBeforeMonthIn (y m : ℕ) : ℕ :=
  monthBase m + (if isLeap y ∧ 3 ≤ m then 1 else 0)

/-- Zero-based ordinal day of a `DT` counted from year-0 Jan 1. -/
def toDay (dt : DT) : ℕ :=
  daysBeforeYear dt.year + daysBeforeMonthIn dt.year dt.month + (dt.day - 1)

/-- Seconds of a `DT` from the year-0 epoch; differences of `toSec` embed
Python's `(a - b).total_seconds()` on these whole-second datetimes. -/
def toSec (dt : DT) : ℕ :=
  toDay dt * 86400 + dt.hour * 3600 + dt.minute * 60 + dt.second

/-- Rounding to 4 decimal places over exact rationals, embedding Python's
`round(x, 4)` (ties, which differ between half-even and half-up, do not
arise in the facts proved below). -/
def round4 (q : ℚ) : ℚ :=
  (round (q * 10000) : ℚ) / 10000

/-- The arithmetic tail of `_calculate_progress_percentage`: given the
interval length and the elapsed seconds, `elapsed / total * 100` rounded to
4 decimals when `total > 0`, and the defensive `0.0` otherwise. -/
def progressValue (total elapsed : ℤ) : ℚ :=
  if 0 < total then round4 ((elapsed : ℚ) / (total : ℚ) * 100) else 0

/-- Embedding of `BirthdayProgressSensor._calculate_progress_percentage`:
`progressValue` applied to the seconds of the anniversary interval; `none`
models an exception escaping from the next/last computation. -/
def progressPercentage (birth now : DT) : Option ℚ :=
  match nextBirthday birth now, lastBirthday birth now with
  | some nx, some l =>
      some (progressValue ((toSec nx : ℤ) - (toSec l : ℤ))
        ((toSec now : ℤ) - (toSec l : ℤ)))
  | _, _ => none

/-- The years figure of `_calculate_age_exact`:
`last_birthday.year - birth_datetime.year`. -/
def ageExactYears (birth now : DT) : Option ℕ :=
  (lastBirthday birth now).map (fun l => l.year - birth.year)

/-- Two-digit zero-padded rendering, embedding the `{:02d}` format. -/
def pad2 (n : ℕ) : String :=
  if n < 10 then "0" ++ toString n else toString n

/-- Embedding of `BirthdayProgressSensor._calculate_age_exact`: the
`"<years>y <days>d HH:MM:SS"` string built from `now - last_birthday`
(whole days, then the day/seconds split of the remainder). -/
def calculateAgeExact (birth now : DT) : Option String :=
  (lastBirthday birth now).map fun l =>
    let years := l.year - birth.year
    let delta := toSec now - toSec l
    let days := delta / 86400
    let rsec := delta % 86400
    toString years ++ "y " ++ toString days ++ "d " ++
      pad2 (rsec / 3600) ++ ":" ++ pad2 (rsec % 3600 / 60) ++ ":" ++ pad2 (rsec % 60)

/-- The `{years, months, weeks, days, hours, minutes, seconds}` record
returned by `_calculate_detailed_time_breakdown`. -/
structure Breakdown where
  years : ℕ
  months : ℕ
  weeks : ℕ
  days : ℕ
  hours : ℕ
  minutes : ℕ
  seconds : ℕ
deriving DecidableEq, Repr

/-- Embedding of `BirthdayProgressSensor._calculate_detailed_time_breakdown`
on a non-negative span given in microseconds (`timedelta` resolution):
`total_seconds = int(td.total_seconds())` and `total_days = td.days` are the
second/day floors of the span, then the fixed 365/30/7 split of the day
count and the 86400/3600/60 split of the second count. -/
def decompose (micros : ℕ) : Breakdown :=
  let totalSeconds := micros / 1000000
  let totalDays := micros / 86400000000
  let years := totalDays / 365
  let remainingDays := totalDays % 365
  let months := remainingDays / 30
  let remainingDaysAfterMonths := remainingDays % 30
  { years := years
    months := months
    weeks := remainingDaysAfterMonths / 7
    days := remainingDaysAfterMonths % 7
    hours := totalSeconds % 86400 / 3600
    minutes := totalSeconds % 3600 / 60
    seconds := totalSeconds % 60 }

/-- One `"<n> <unit>"` piece with the `'s' if n != 1 else ''` pluralization
of `_format_detailed_time`. -/
def plural (n : ℕ) (unit : String) : String :=
  toString n ++ " " ++ unit ++ (if n ≠ 1 then "s" else "")

/-- The first six conditional appends of `_format_detailed_time` (every
field except seconds), in source order. -/
def nonSecondParts (b : Breakdown) : List String :=
  (if 0 < b.years then [plural b.years "year"] else []) ++
  (if 0 < b.months then [plural b.months "month"] else []) ++
  (if 0 < b.weeks then [plural b.weeks "week"] else []) ++
  (if 0 < b.days then [plural b.days "day"] else []) ++
  (if 0 < b.hours then [plural b.hours "hour"] else []) ++
  (if 0 < b.minutes then [plural b.minutes "minute"] else [])

/-- The full `parts` list of `_format_detailed_time`: seconds are appended
when non-zero, or when every earlier part (and hence every earlier field)
was zero (`breakdown["seconds"] > 0 or len(parts) == 0`). -/
def breakdownParts (b : Breakdown) : List String :=
  let parts := nonSecondParts b
  parts ++ (if 0 < b.seconds ∨ parts = [] then [plural b.seconds "second"] else [])

/-- Embedding of `BirthdayProgressSensor._format_detailed_time`: the join
over the parts list (`"0 seconds"`, verbatim, `"A and B"`, or comma list
with an Oxford comma). -/
def formatDetailedTime (b : Breakdown) : String :=
  match breakdownParts b with
  | [] => "0 seconds"
  | [a] => a
  | [a, b2] => a ++ " and " ++ b2
  | a :: b2 :: c :: rest =>
      String.intercalate ", " (List.dropLast (a :: b2 :: c :: rest)) ++
        ", and " ++ List.getLastD (a :: b2 :: c :: rest) ""

/-- The parts list as the specification words it: each non-zero field in
order years, months, weeks, days, hours, minutes, seconds, as
`"<n> <unit>"` pluralized exactly when the count is not 1. -/
def specParts (b : Breakdown) : List String :=
  (([(b.years, "year"), (b.months, "month"), (b.weeks, "week"), (b.days, "day"),
     (b.hours, "hour"), (b.minutes, "minute"),
     (b.seconds, "second")].filter (fun p => 0 < p.1)).map
    (fun p => toString p.1 ++ " " ++ p.2 ++ (if p.1 ≠ 1 then "s" else "")))

/-- The join rule as the specification words it: zero parts give
`"0 seconds"`, one part is verbatim, two parts join with `" and "`, three or
more join with commas and an Oxford comma before the final item. -/
def specJoin (parts : List String) : String :=
  match parts with
  | [] => "0 seconds"
  | [a] => a
  | [a, b2] => a ++ " and " ++ b2
  | a :: b2 :: c :: rest =>
      String.intercalate ", " (List.dropLast (a :: b2 :: c :: rest)) ++
        ", and " ++ List.getLastD (a :: b2 :: c :: rest) ""

/-- A `now` instant lying exactly on the birth month/day/time-of-day. -/
def isAnniversaryInstant (birth now : DT) : Prop :=
  now.month = birth.month ∧ now.day = birth.day ∧ now.hour = birth.hour ∧
    now.minute = birth.minute ∧ now.second = birth.second

instance (birth now : DT) : Decidable (isAnniversaryInstant birth now) := by
  unfold isAnniversaryInstant; infer_instance

theorem dtLe_refl (a : DT) : dtLe a a :=
  Or.inr rfl

theorem not_dtLe_iff {a b : DT} : ¬ dtLe a b ↔ dtLt b a := by
  simp only [dtLe, dtLt, DT.ext_iff]
  omega

theorem not_dtLt_iff {a b : DT} : ¬ dtLt a b ↔ dtLe b a := by
  simp only [dtLe, dtLt, DT.ext_iff]
  omega

theorem dtLe_trans {a b c : DT} (h1 : dtLe a b) (h2 : dtLe b c) : dtLe a c := by
  simp only [dtLe, dtLt, DT.ext_iff] at *
  omega

theorem dtLe_of_dtLt {a b : DT} (h : dtLt a b) : dtLe a b :=
  Or.inl h

theorem dtLt_asymm {a b : DT} (h : dtLt a b) : ¬ dtLt b a := by
  simp only [dtLt] at *
  omega

theorem dtLt_of_year_lt {a b : DT} (h : a.year < b.year) : dtLt a b :=
  Or.inl h

theorem year_le_of_dtLt {a b : DT} (h : dtLt a b) : a.year ≤ b.year := by
  simp only [dtLt] at h
  omega

theorem year_le_of_dtLe {a b : DT} (h : dtLe a b) : a.year ≤ b.year := by
  simp only [dtLe, dtLt, DT.ext_iff] at h
  omega

theorem mkDT_pos {y m d h mi s : ℕ}
    (hc : 1 ≤ m ∧ m ≤ 12 ∧ 1 ≤ d ∧ d ≤ daysInMonth y m ∧ h ≤ 23 ∧ mi ≤ 59 ∧ s ≤ 59 ∧
      1 ≤ y ∧ y ≤ 9999) :
    mkDT y m d h mi s = some ⟨y, m, d, h, mi, s⟩ := by
  unfold mkDT
  rw [if_pos hc]

theorem mkDT_neg {y m d h mi s : ℕ}
    (hc : ¬(1 ≤ m ∧ m ≤ 12 ∧ 1 ≤ d ∧ d ≤ daysInMonth y m ∧ h ≤ 23 ∧ mi ≤ 59 ∧ s ≤ 59 ∧
      1 ≤ y ∧ y ≤ 9999)) :
    mkDT y m d h mi s = none := by
  unfold mkDT
  rw [if_neg hc]

theorem mkDT_some_inv {y m d h mi s : ℕ} {dt : DT}
    (he : mkDT y m d h mi s = some dt) : dt = ⟨y, m, d, h, mi, s⟩ ∧ wf dt := by
  unfold mkDT at he
  split_ifs at he with hc
  cases he
  exact ⟨rfl, by simpa [wf] using hc⟩

theorem wf_year_range {dt : DT} (h : wf dt) : 1 ≤ dt.year ∧ dt.year ≤ 9999 :=
  ⟨h.2.2.2.2.2.2.2.1, h.2.2.2.2.2.2.2.2⟩

theorem daysInMonth_two (y : ℕ) : daysInMonth y 2 = if isLeap y then 29 else 28 :=
  rfl

theorem daysInMonth_ge_28 (y m : ℕ) : 28 ≤ daysInMonth y m := by
  unfold daysInMonth
  split
  · split_ifs <;> omega
  all_goals omega

theorem daysInMonth_year_irrel (y y' m : ℕ) (h : m ≠ 2) :
    daysInMonth y m = daysInMonth y' m := by
  rcases m with _ | _ | _ | _ | _ | _ | _ | _ | _ | _ | _ | _ | _ | m <;>
    first
      | rfl
      | exact absurd rfl h

theorem isLeap_succ_false {y : ℕ} (h : isLeap y) : ¬ isLeap (y + 1) := by
  unfold isLeap at *
  omega

theorem isLeap_pred_false {y : ℕ} (h : isLeap y) (h1 : 1 ≤ y) : ¬ isLeap (y - 1) := by
  unfold isLeap at *
  omega

theorem leap_of_feb29 {birth : DT} (hb : wf birth) (h2 : birth.month = 2)
    (h29 : birth.day = 29) : isLeap birth.year := by
  obtain ⟨-, -, -, h4, -⟩ := hb
  rw [h2, h29, daysInMonth_two] at h4
  split_ifs at h4 with hL
  · exact hL
  · omega

theorem mkDT_anniv {birth : DT} (hb : wf birth)
    (hnf : ¬(birth.month = 2 ∧ birth.day = 29)) (y : ℕ)
    (hy1 : 1 ≤ y) (hy2 : y ≤ 9999) :
    mkDT y birth.month birth.day birth.hour birth.minute birth.second =
      some (anniv y birth) := by
  obtain ⟨h1, h2, h3, h4, h5, h6, h7, h8, h9⟩ := hb
  apply mkDT_pos
  refine ⟨h1, h2, h3, ?_, h5, h6, h7, hy1, hy2⟩
  by_cases hm : birth.month = 2
  · have : birth.day ≠ 29 := fun hd => hnf ⟨hm, hd⟩
    have h28 := daysInMonth_ge_28 y birth.month
    rw [hm, daysInMonth_two] at h4 ⊢
    split_ifs at h4 ⊢ <;> omega
  · rw [daysInMonth_year_irrel y birth.year birth.month hm]
    exact h4

theorem mkDT_feb29_leap {y h mi s : ℕ} (hL : isLeap y)
    (hh : h ≤ 23) (hmi : mi ≤ 59) (hs : s ≤ 59)
    (hy1 : 1 ≤ y) (hy2 : y ≤ 9999) :
    mkDT y 2 29 h mi s = some ⟨y, 2, 29, h, mi, s⟩ := by
  apply mkDT_pos
  refine ⟨by omega, by omega, by omega, ?_, hh, hmi, hs, hy1, hy2⟩
  rw [daysInMonth_two, if_pos hL]

theorem mkDT_feb29_nonleap {y h mi s : ℕ} (hL : ¬ isLeap y) :
    mkDT y 2 29 h mi s = none := by
  apply mkDT_neg
  intro hc
  have h4 := hc.2.2.2.1
  rw [daysInMonth_two, if_neg hL] at h4
  omega

theorem mkDT_feb28 (y : ℕ) {h mi s : ℕ}
    (hh : h ≤ 23) (hmi : mi ≤ 59) (hs : s ≤ 59)
    (hy1 : 1 ≤ y) (hy2 : y ≤ 9999) :
    mkDT y 2 28 h mi s = some ⟨y, 2, 28, h, mi, s⟩ := by
  apply mkDT_pos
  exact ⟨by omega, by omega, by omega, daysInMonth_ge_28 y 2, hh, hmi, hs, hy1, hy2⟩

theorem leapsUpTo_succ (n : ℕ) :
    leapsUpTo (n + 1) = leapsUpTo n + (if isLeap (n + 1) then 1 else 0) := by
  have e4 := Nat.succ_div n 4
  have e100 := Nat.succ_div n 100
  have e400 := Nat.succ_div n 400
  have le1 : n / 100 ≤ n / 4 := Nat.div_le_div_left (by norm_num) (by norm_num)
  simp only [leapsUpTo, isLeap]
  split_ifs at e4 e100 e400 ⊢ <;> omega

theorem daysBeforeYear_succ (y : ℕ) :
    daysBeforeYear (y + 1) = daysBeforeYear y + (if isLeap y then 366 else 365) := by
  cases y with
  | zero => decide
  | succ k =>
      have h1 : daysBeforeYear (k + 1 + 1) = 365 * (k + 2) + 1 + leapsUpTo (k + 1) := by
        simp [daysBeforeYear]
      have h2 : daysBeforeYear (k + 1) = 365 * (k + 1) + 1 + leapsUpTo k := by
        simp [daysBeforeYear]
      rw [h1, h2, leapsUpTo_succ k]
      split_ifs <;> omega

theorem daysBeforeYear_mono : Monotone daysBeforeYear := by
  apply monotone_nat_of_le_succ
  intro y
  rw [daysBeforeYear_succ]
  split_ifs <;> omega

theorem doy_lt_daysInYear (y m d : ℕ) (h1 : 1 ≤ m) (h2 : m ≤ 12) (h3 : 1 ≤ d)
    (h4 : d ≤ daysInMonth y m) :
    daysBeforeMonthIn y m + (d - 1) < (if isLeap y then 366 else 365) := by
  by_cases hL : isLeap y <;> interval_cases m <;>
    simp [daysBeforeMonthIn, daysInMonth, monthBase, hL] at h4 ⊢ <;> omega

theorem doy_strict (y m1 d1 m2 d2 : ℕ) (h1 : 1 ≤ m1) (h2 : m1 ≤ 12) (h3 : 1 ≤ d1)
    (h4 : d1 ≤ daysInMonth y m1) (h5 : 1 ≤ m2) (h6 : m2 ≤ 12) (h7 : 1 ≤ d2)
    (hlt : m1 < m2 ∨ (m1 = m2 ∧ d1 < d2)) :
    daysBeforeMonthIn y m1 + (d1 - 1) < daysBeforeMonthIn y m2 + (d2 - 1) := by
  by_cases hL : isLeap y <;> interval_cases m1 <;> interval_cases m2 <;>
    simp [daysBeforeMonthIn, daysInMonth, monthBase, hL] at h4 hlt ⊢ <;> omega

theorem toDay_lt_of_ymd_lt {a b : DT} (ha : wf a) (hb : wf b)
    (h : a.year < b.year ∨ (a.year = b.year ∧ (a.month < b.month ∨
      (a.month = b.month ∧ a.day < b.day)))) :
    toDay a < toDay b := by
  obtain ⟨ha1, ha2, ha3, ha4, -⟩ := ha
  obtain ⟨hb1, hb2, hb3, hb4, -⟩ := hb
  rcases h with hy | ⟨hy, h⟩
  · have hbound := doy_lt_daysInYear a.year a.month a.day ha1 ha2 ha3 ha4
    have hsucc := daysBeforeYear_succ a.year
    have hmono := daysBeforeYear_mono (show a.year + 1 ≤ b.year from hy)
    unfold toDay
    split_ifs at hbound hsucc <;> omega
  · rcases h with hm | ⟨hm, hd⟩
    · have hstrict := doy_strict a.year a.month a.day b.month b.day
        ha1 ha2 ha3 ha4 hb1 hb2 hb3 (Or.inl hm)
      unfold toDay
      rw [← hy]
      omega
    · unfold toDay
      rw [← hy, ← hm]
      omega

theorem toSec_lt_of_dtLt {a b : DT} (ha : wf a) (hb : wf b) (h : dtLt a b) :
    toSec a < toSec b := by
  have hta : a.hour * 3600 + a.minute * 60 + a.second ≤ 86399 := by
    obtain ⟨-, -, -, -, h5, h6, h7⟩ := ha
    omega
  rcases h with hy | ⟨hy, hm | ⟨hm, hd | ⟨hd, htime⟩⟩⟩
  · have := toDay_lt_of_ymd_lt ha hb (Or.inl hy)
    unfold toSec
    nlinarith [this]
  · have := toDay_lt_of_ymd_lt ha hb (Or.inr ⟨hy, Or.inl hm⟩)
    unfold toSec
    nlinarith [this]
  · have := toDay_lt_of_ymd_lt ha hb (Or.inr ⟨hy, Or.inr ⟨hm, hd⟩⟩)
    unfold toSec
    nlinarith [this]
  · have hday : toDay a = toDay b := by
      unfold toDay
      rw [hy, hm, hd]
    obtain ⟨-, -, -, -, ha5, ha6, ha7⟩ := ha
    obtain ⟨-, -, -, -, hb5, hb6, hb7⟩ := hb
    unfold toSec
    rw [hday]
    omega

theorem toSec_le_of_dtLe {a b : DT} (ha : wf a) (hb : wf b) (h : dtLe a b) :
    toSec a ≤ toSec b := by
  rcases h with h | rfl
  · exact le_of_lt (toSec_lt_of_dtLt ha hb h)
  · exact le_refl _

theorem feb29NextFallback_some_gt {birth now x : DT}
    (h : feb29NextFallback birth now = some x) : dtLt now x ∧ wf x := by
  unfold feb29NextFallback at h
  split_ifs at h with hF
  · split at h
    next c heq =>
      split at h
      next hcond =>
        cases h
        exact ⟨hcond, (mkDT_some_inv heq).2⟩
      next hcond =>
        split at h
        next c2 heq2 =>
          split at h
          next hcond2 =>
            cases h
            exact ⟨hcond2, (mkDT_some_inv heq2).2⟩
          next hcond2 =>
            obtain ⟨he, hwf⟩ := mkDT_some_inv h
            subst he
            exact ⟨dtLt_of_year_lt (Nat.lt_succ_self _), hwf⟩
        next heq2 =>
          obtain ⟨he, hwf⟩ := mkDT_some_inv h
          subst he
          exact ⟨dtLt_of_year_lt (Nat.lt_succ_self _), hwf⟩
    next heq =>
      split at h
      next c2 heq2 =>
        split at h
        next hcond2 =>
          cases h
          exact ⟨hcond2, (mkDT_some_inv heq2).2⟩
        next hcond2 =>
          obtain ⟨he, hwf⟩ := mkDT_some_inv h
          subst he
          exact ⟨dtLt_of_year_lt (Nat.lt_succ_self _), hwf⟩
      next heq2 =>
        obtain ⟨he, hwf⟩ := mkDT_some_inv h
        subst he
        exact ⟨dtLt_of_year_lt (Nat.lt_succ_self _), hwf⟩
  · obtain ⟨he, hwf⟩ := mkDT_some_inv h
    subst he
    exact ⟨dtLt_of_year_lt (Nat.lt_succ_self _), hwf⟩

theorem nextBirthday_some_gt {birth now x : DT}
    (h : nextBirthday birth now = some x) : dtLt now x ∧ wf x := by
  unfold nextBirthday at h
  split at h
  next c heq =>
    split at h
    next hcond =>
      split at h
      next c2 heq2 =>
        cases h
        obtain ⟨he, hwf⟩ := mkDT_some_inv heq2
        subst he
        exact ⟨dtLt_of_year_lt (Nat.lt_succ_self _), hwf⟩
      next heq2 =>
        exact feb29NextFallback_some_gt h
    next hcond =>
      cases h
      exact ⟨not_dtLe_iff.mp hcond, (mkDT_some_inv heq).2⟩
  next heq =>
    exact feb29NextFallback_some_gt h

theorem feb29LastFallback_some_le {birth now l : DT}
    (h : feb29LastFallback birth now = some l) : dtLe l now ∧ wf l := by
  unfold feb29LastFallback at h
  split_ifs at h with hF
  · split at h
    next c heq =>
      split at h
      next hcond =>
        cases h
        exact ⟨hcond, (mkDT_some_inv heq).2⟩
      next hcond =>
        split at h
        next c2 heq2 =>
          split at h
          next hcond2 =>
            cases h
            exact ⟨hcond2, (mkDT_some_inv heq2).2⟩
          next hcond2 =>
            obtain ⟨he, hwf⟩ := mkDT_some_inv h
            subst he
            have hy1 : (1 : ℕ) ≤ now.year - 1 := hwf.2.2.2.2.2.2.2.1
            exact ⟨dtLe_of_dtLt (dtLt_of_year_lt (show now.year - 1 < now.year by omega)), hwf⟩
        next heq2 =>
          obtain ⟨he, hwf⟩ := mkDT_some_inv h
          subst he
          have hy1 : (1 : ℕ) ≤ now.year - 1 := hwf.2.2.2.2.2.2.2.1
          exact ⟨dtLe_of_dtLt (dtLt_of_year_lt (show now.year - 1 < now.year by omega)), hwf⟩
    next heq =>
      split at h
      next c2 heq2 =>
        split at h
        next hcond2 =>
          cases h
          exact ⟨hcond2, (mkDT_some_inv heq2).2⟩
        next hcond2 =>
          obtain ⟨he, hwf⟩ := mkDT_some_inv h
          subst he
          have hy1 : (1 : ℕ) ≤ now.year - 1 := hwf.2.2.2.2.2.2.2.1
          exact ⟨dtLe_of_dtLt (dtLt_of_year_lt (show now.year - 1 < now.year by omega)), hwf⟩
      next heq2 =>
        obtain ⟨he, hwf⟩ := mkDT_some_inv h
        subst he
        have hy1 : (1 : ℕ) ≤ now.year - 1 := hwf.2.2.2.2.2.2.2.1
        exact ⟨dtLe_of_dtLt (dtLt_of_year_lt (show now.year - 1 < now.year by omega)), hwf⟩
  · obtain ⟨he, hwf⟩ := mkDT_some_inv h
    subst he
    have hy1 : (1 : ℕ) ≤ now.year - 1 := hwf.2.2.2.2.2.2.2.1
    exact ⟨dtLe_of_dtLt (dtLt_of_year_lt (show now.year - 1 < now.year by omega)), hwf⟩

theorem lastBirthday_some_le {birth now l : DT}
    (h : lastBirthday birth now = some l) : dtLe l now ∧ wf l := by
  unfold lastBirthday at h
  split at h
  next c heq =>
    split at h
    next hcond =>
      split at h
      next c2 heq2 =>
        cases h
        obtain ⟨he, hwf⟩ := mkDT_some_inv heq2
        subst he
        have hy1 : (1 : ℕ) ≤ now.year - 1 := hwf.2.2.2.2.2.2.2.1
        exact ⟨dtLe_of_dtLt (dtLt_of_year_lt (show now.year - 1 < now.year by omega)), hwf⟩
      next heq2 =>
        exact feb29LastFallback_some_le h
    next hcond =>
      cases h
      exact ⟨not_dtLt_iff.mp hcond, (mkDT_some_inv heq).2⟩
  next heq =>
    exact feb29LastFallback_some_le h

theorem nextBirthday_isSome {birth : DT} (hb : wf birth) (now : DT)
    (hn1 : 1 ≤ now.year) (hn2 : now.year ≤ 9998) :
    ∃ x, nextBirthday birth now = some x := by
  obtain ⟨h1, h2, h3, h4, h5, h6, h7, h8, h9⟩ := hb
  by_cases hF : birth.month = 2 ∧ birth.day = 29
  · obtain ⟨hm2, hd29⟩ := hF
    by_cases hL : isLeap now.year
    · have eA : mkDT now.year birth.month birth.day birth.hour birth.minute birth.second
          = some ⟨now.year, 2, 29, birth.hour, birth.minute, birth.second⟩ := by
        rw [hm2, hd29]
        exact mkDT_feb29_leap hL h5 h6 h7 hn1 (by omega)
      have eB : mkDT (now.year + 1) birth.month birth.day birth.hour birth.minute birth.second
          = none := by
        rw [hm2, hd29]
        exact mkDT_feb29_nonleap (isLeap_succ_false hL)
      have eC : mkDT now.year 2 29 birth.hour birth.minute birth.second
          = some ⟨now.year, 2, 29, birth.hour, birth.minute, birth.second⟩ :=
        mkDT_feb29_leap hL h5 h6 h7 hn1 (by omega)
      have eD : mkDT (now.year + 1) 2 29 birth.hour birth.minute birth.second = none :=
        mkDT_feb29_nonleap (isLeap_succ_false hL)
      by_cases hle : dtLe (⟨now.year, 2, 29, birth.hour, birth.minute, birth.second⟩ : DT) now
      · have hnlt : ¬ dtLt now ⟨now.year, 2, 29, birth.hour, birth.minute, birth.second⟩ :=
          not_dtLt_iff.mpr hle
        refine ⟨⟨now.year + 1, 2, 28, birth.hour, birth.minute, birth.second⟩, ?_⟩
        simp only [nextBirthday, feb29NextFallback, eA, eB, eC, eD, hle, hnlt, hm2, hd29,
          if_true, if_false, ite_true, ite_false, and_self, not_false_iff]
        exact mkDT_feb28 _ h5 h6 h7 (by omega) (by omega)
      · refine ⟨⟨now.year, 2, 29, birth.hour, birth.minute, birth.second⟩, ?_⟩
        simp only [nextBirthday, eA, hle, if_false, ite_false]
    · have eA : mkDT now.year birth.month birth.day birth.hour birth.minute birth.second
          = none := by
        rw [hm2, hd29]
        exact mkDT_feb29_nonleap hL
      have eC : mkDT now.year 2 29 birth.hour birth.minute birth.second = none :=
        mkDT_feb29_nonleap hL
      by_cases hL1 : isLeap (now.year + 1)
      · have eD : mkDT (now.year + 1) 2 29 birth.hour birth.minute birth.second
            = some ⟨now.year + 1, 2, 29, birth.hour, birth.minute, birth.second⟩ :=
          mkDT_feb29_leap hL1 h5 h6 h7 (by omega) (by omega)
        have hlt : dtLt now ⟨now.year + 1, 2, 29, birth.hour, birth.minute, birth.second⟩ :=
          dtLt_of_year_lt (Nat.lt_succ_self _)
        refine ⟨⟨now.year + 1, 2, 29, birth.hour, birth.minute, birth.second⟩, ?_⟩
        simp only [nextBirthday, feb29NextFallback, eA, eC, eD, hlt, hm2, hd29,
          if_true, ite_true, and_self]
      · have eD : mkDT (now.year + 1) 2 29 birth.hour birth.minute birth.second = none :=
          mkDT_feb29_nonleap hL1
        refine ⟨⟨now.year + 1, 2, 28, birth.hour, birth.minute, birth.second⟩, ?_⟩
        simp only [nextBirthday, feb29NextFallback, eA, eC, eD, hm2, hd29,
          if_true, ite_true, and_self]
        exact mkDT_feb28 _ h5 h6 h7 (by omega) (by omega)
  · have eA := mkDT_anniv ⟨h1, h2, h3, h4, h5, h6, h7, h8, h9⟩ hF now.year hn1 (by omega)
    have eB := mkDT_anniv ⟨h1, h2, h3, h4, h5, h6, h7, h8, h9⟩ hF (now.year + 1)
      (by omega) (by omega)
    by_cases hle : dtLe (anniv now.year birth) now
    · exact ⟨anniv (now.year + 1) birth,
        by simp only [nextBirthday, eA, eB, hle, if_true, ite_true]⟩
    · exact ⟨anniv now.year birth, by simp only [nextBirthday, eA, hle, if_false, ite_false]⟩

theorem lastBirthday_isSome {birth : DT} (hb : wf birth) (now : DT)
    (hn1 : 2 ≤ now.year) (hn2 : now.year ≤ 9999) :
    ∃ l, lastBirthday birth now = some l := by
  obtain ⟨h1, h2, h3, h4, h5, h6, h7, h8, h9⟩ := hb
  by_cases hF : birth.month = 2 ∧ birth.day = 29
  · obtain ⟨hm2, hd29⟩ := hF
    by_cases hL : isLeap now.year
    · have eA : mkDT now.year birth.month birth.day birth.hour birth.minute birth.second
          = some ⟨now.year, 2, 29, birth.hour, birth.minute, birth.second⟩ := by
        rw [hm2, hd29]
        exact mkDT_feb29_leap hL h5 h6 h7 (by omega) hn2
      have eC : mkDT now.year 2 29 birth.hour birth.minute birth.second
          = some ⟨now.year, 2, 29, birth.hour, birth.minute, birth.second⟩ :=
        mkDT_feb29_leap hL h5 h6 h7 (by omega) hn2
      by_cases hlt : dtLt now (⟨now.year, 2, 29, birth.hour, birth.minute, birth.second⟩ : DT)
      · have hnle : ¬ dtLe (⟨now.year, 2, 29, birth.hour, birth.minute, birth.second⟩ : DT) now :=
          not_dtLe_iff.mpr hlt
        have eB : mkDT (now.year - 1) birth.month birth.day birth.hour birth.minute birth.second
            = none := by
          rw [hm2, hd29]
          exact mkDT_feb29_nonleap (isLeap_pred_false hL (by omega))
        have eD : mkDT (now.year - 1) 2 29 birth.hour birth.minute birth.second = none :=
          mkDT_feb29_nonleap (isLeap_pred_false hL (by omega))
        refine ⟨⟨now.year - 1, 2, 28, birth.hour, birth.minute, birth.second⟩, ?_⟩
        simp only [lastBirthday, feb29LastFallback, eA, eB, eC, eD, hlt, hnle, hm2, hd29,
          if_true, if_false, ite_true, ite_false, and_self]
        exact mkDT_feb28 _ h5 h6 h7 (by omega) (by omega)
      · refine ⟨⟨now.year, 2, 29, birth.hour, birth.minute, birth.second⟩, ?_⟩
        simp only [lastBirthday, eA, hlt, if_false, ite_false]
    · have eA : mkDT now.year birth.month birth.day birth.hour birth.minute birth.second
          = none := by
        rw [hm2, hd29]
        exact mkDT_feb29_nonleap hL
      have eC : mkDT now.year 2 29 birth.hour birth.minute birth.second = none :=
        mkDT_feb29_nonleap hL
      by_cases hL1 : isLeap (now.year - 1)
      · have eD : mkDT (now.year - 1) 2 29 birth.hour birth.minute birth.second
            = some ⟨now.year - 1, 2, 29, birth.hour, birth.minute, birth.second⟩ :=
          mkDT_feb29_leap hL1 h5 h6 h7 (by omega) (by omega)
        by_cases hle : dtLe (⟨now.year - 1, 2, 29, birth.hour, birth.minute, birth.second⟩ : DT) now
        · refine ⟨⟨now.year - 1, 2, 29, birth.hour, birth.minute, birth.second⟩, ?_⟩
          simp only [lastBirthday, feb29LastFallback, eA, eC, eD, hle, hm2, hd29,
            if_true, ite_true, and_self]
        · refine ⟨⟨now.year - 1, 2, 28, birth.hour, birth.minute, birth.second⟩, ?_⟩
          simp only [lastBirthday, feb29LastFallback, eA, eC, eD, hle, hm2, hd29,
            if_true, if_false, ite_true, ite_false, and_self]
          exact mkDT_feb28 _ h5 h6 h7 (by omega) (by omega)
      · have eD : mkDT (now.year - 1) 2 29 birth.hour birth.minute birth.second = none :=
          mkDT_feb29_nonleap hL1
        refine ⟨⟨now.year - 1, 2, 28, birth.hour, birth.minute, birth.second⟩, ?_⟩
        simp only [lastBirthday, feb29LastFallback, eA, eC, eD, hm2, hd29,
          if_true, ite_true, and_self]
        exact mkDT_feb28 _ h5 h6 h7 (by omega) (by omega)
  · have eA := mkDT_anniv ⟨h1, h2, h3, h4, h5, h6, h7, h8, h9⟩ hF now.year (by omega) hn2
    have eB := mkDT_anniv ⟨h1, h2, h3, h4, h5, h6, h7, h8, h9⟩ hF (now.year - 1)
      (by omega) (by omega)
    by_cases hlt : dtLt now (anniv now.year birth)
    · exact ⟨anniv (now.year - 1) birth,
        by simp only [lastBirthday, eA, eB, hlt, if_true, ite_true]⟩
    · exact ⟨anniv now.year birth, by simp only [lastBirthday, eA, hlt, if_false, ite_false]⟩

theorem nextBirthday_nonFeb29_le {birth : DT} (hb : wf birth)
    (hF : ¬(birth.month = 2 ∧ birth.day = 29)) (now : DT)
    (hn1 : 1 ≤ now.year) (hn2 : now.year ≤ 9998)
    (hle : dtLe (anniv now.year birth) now) :
    nextBirthday birth now = some (anniv (now.year + 1) birth) := by
  have eA := mkDT_anniv hb hF now.year hn1 (by omega)
  have eB := mkDT_anniv hb hF (now.year + 1) (by omega) (by omega)
  simp only [nextBirthday, eA, eB, hle, if_true, ite_true]

theorem nextBirthday_nonFeb29_gt {birth : DT} (hb : wf birth)
    (hF : ¬(birth.month = 2 ∧ birth.day = 29)) (now : DT)
    (hn1 : 1 ≤ now.year) (hn2 : now.year ≤ 9999)
    (hgt : ¬ dtLe (anniv now.year birth) now) :
    nextBirthday birth now = some (anniv now.year birth) := by
  have eA := mkDT_anniv hb hF now.year hn1 hn2
  simp only [nextBirthday, eA, hgt, if_false, ite_false]

theorem lastBirthday_nonFeb29_ge {birth : DT} (hb : wf birth)
    (hF : ¬(birth.month = 2 ∧ birth.day = 29)) (now : DT)
    (hn1 : 1 ≤ now.year) (hn2 : now.year ≤ 9999)
    (hge : ¬ dtLt now (anniv now.year birth)) :
    lastBirthday birth now = some (anniv now.year birth) := by
  have eA := mkDT_anniv hb hF now.year hn1 hn2
  simp only [lastBirthday, eA, hge, if_false, ite_false]

theorem lastBirthday_nonFeb29_lt {birth : DT} (hb : wf birth)
    (hF : ¬(birth.month = 2 ∧ birth.day = 29)) (now : DT)
    (hn1 : 2 ≤ now.year) (hn2 : now.year ≤ 9999)
    (hlt : dtLt now (anniv now.year birth)) :
    lastBirthday birth now = some (anniv (now.year - 1) birth) := by
  have eA := mkDT_anniv hb hF now.year (by omega) hn2
  have eB := mkDT_anniv hb hF (now.year - 1) (by omega) (by omega)
  simp only [lastBirthday, eA, eB, hlt, if_true, ite_true]

theorem next_nonFeb29_cases {birth n x : DT} (hb : wf birth)
    (hF : ¬(birth.month = 2 ∧ birth.day = 29)) (hn : wf n)
    (hx : nextBirthday birth n = some x) :
    (dtLe (anniv n.year birth) n ∧ n.year ≤ 9998 ∧ x = anniv (n.year + 1) birth) ∨
      (¬ dtLe (anniv n.year birth) n ∧ x = anniv n.year birth) := by
  obtain ⟨hny1, hny2⟩ := wf_year_range hn
  by_cases hle : dtLe (anniv n.year birth) n
  · left
    by_cases hY : n.year ≤ 9998
    · rw [nextBirthday_nonFeb29_le hb hF n hny1 hY hle] at hx
      exact ⟨hle, hY, (Option.some.inj hx).symm⟩
    · exfalso
      have eA := mkDT_anniv hb hF n.year hny1 hny2
      have eB : mkDT (n.year + 1) birth.month birth.day birth.hour birth.minute birth.second
          = none := by
        apply mkDT_neg
        intro hc
        have := hc.2.2.2.2.2.2.2.2
        omega
      simp only [nextBirthday, eA, eB, hle, if_true, ite_true] at hx
      unfold feb29NextFallback at hx
      rw [if_neg hF, eB] at hx
      exact Option.noConfusion hx
  · right
    rw [nextBirthday_nonFeb29_gt hb hF n hny1 hny2 hle] at hx
    exact ⟨hle, (Option.some.inj hx).symm⟩

theorem last_nonFeb29_cases {birth n l : DT} (hb : wf birth)
    (hF : ¬(birth.month = 2 ∧ birth.day = 29)) (hn : wf n)
    (hl : lastBirthday birth n = some l) :
    (dtLt n (anniv n.year birth) ∧ 2 ≤ n.year ∧ l = anniv (n.year - 1) birth) ∨
      (¬ dtLt n (anniv n.year birth) ∧ l = anniv n.year birth) := by
  obtain ⟨hny1, hny2⟩ := wf_year_range hn
  by_cases hlt : dtLt n (anniv n.year birth)
  · left
    by_cases hY : 2 ≤ n.year
    · rw [lastBirthday_nonFeb29_lt hb hF n hY hny2 hlt] at hl
      exact ⟨hlt, hY, (Option.some.inj hl).symm⟩
    · exfalso
      have eA := mkDT_anniv hb hF n.year hny1 hny2
      have eB : mkDT (n.year - 1) birth.month birth.day birth.hour birth.minute birth.second
          = none := by
        apply mkDT_neg
        intro hc
        have := hc.2.2.2.2.2.2.2.1
        omega
      simp only [lastBirthday, eA, eB, hlt, if_true, ite_true] at hl
      unfold feb29LastFallback at hl
      rw [if_neg hF, eB] at hl
      exact Option.noConfusion hl
  · right
    rw [lastBirthday_nonFeb29_ge hb hF n hny1 hny2 hlt] at hl
    exact ⟨hlt, (Option.some.inj hl).symm⟩

theorem progress_eq_of_pos {birth now nx l : DT}
    (hx : nextBirthday birth now = some nx) (hl : lastBirthday birth now = some l)
    (hT : 0 < (toSec nx : ℤ) - (toSec l : ℤ)) :
    progressPercentage birth now =
      some (round4 ((((toSec now : ℤ) - (toSec l : ℤ) : ℤ) : ℚ) /
        (((toSec nx : ℤ) - (toSec l : ℤ) : ℤ) : ℚ) * 100)) := by
  simp only [progressPercentage, progressValue, hx, hl, hT, if_true, ite_true]

theorem progress_eq_zero_of_nonpos {birth now nx l : DT}
    (hx : nextBirthday birth now = some nx) (hl : lastBirthday birth now = some l)
    (hT : (toSec nx : ℤ) - (toSec l : ℤ) ≤ 0) :
    progressPercentage birth now = some 0 := by
  have hT2 : ¬ (0 < (toSec nx : ℤ) - (toSec l : ℤ)) := by omega
  simp only [progressPercentage, progressValue, hx, hl, hT2, if_false, ite_false]

theorem progress_eq_value {birth now nx l : DT}
    (hx : nextBirthday birth now = some nx) (hl : lastBirthday birth now = some l) :
    progressPercentage birth now =
      some (progressValue ((toSec nx : ℤ) - (toSec l : ℤ))
        ((toSec now : ℤ) - (toSec l : ℤ))) := by
  simp only [progressPercentage, hx, hl]

theorem round4_mono {p q : ℚ} (h : p ≤ q) : round4 p ≤ round4 q := by
  unfold round4
  have hr : round (p * 10000) ≤ round (q * 10000) := by
    rw [round_eq, round_eq]
    exact Int.floor_le_floor (by linarith)
  have hr2 : ((round (p * 10000) : ℤ) : ℚ) ≤ ((round (q * 10000) : ℤ) : ℚ) := by
    exact_mod_cast hr
  exact div_le_div_of_nonneg_right hr2 (by norm_num)

theorem round4_zero : round4 0 = 0 := by
  norm_num [round4]

theorem round4_hundred : round4 100 = 100 := by
  unfold round4
  rw [show (100 : ℚ) * 10000 = ((1000000 : ℤ) : ℚ) by norm_num, round_intCast]
  norm_num

theorem dtLe_lt_trans {a b c : DT} (h1 : dtLe a b) (h2 : dtLt b c) : dtLt a c := by
  simp only [dtLe, dtLt, DT.ext_iff] at *
  omega

theorem nonFeb29_continuity {birth now : DT} (hb : wf birth)
    (hF : ¬(birth.month = 2 ∧ birth.day = 29)) (hn : wf now)
    (h2 : 2 ≤ now.year) (h3 : now.year ≤ 9998) :
    ∃ l, lastBirthday birth now = some l ∧
      nextBirthday birth l = nextBirthday birth now := by
  obtain ⟨hny1, hny2⟩ := wf_year_range hn
  by_cases hlt : dtLt now (anniv now.year birth)
  · rw [lastBirthday_nonFeb29_lt hb hF now h2 hny2 hlt]
    refine ⟨anniv (now.year - 1) birth, rfl, ?_⟩
    rw [nextBirthday_nonFeb29_le hb hF (anniv (now.year - 1) birth)
        (show (1 : ℕ) ≤ now.year - 1 by omega) (show now.year - 1 ≤ 9998 by omega)
        (dtLe_refl _),
      nextBirthday_nonFeb29_gt hb hF now hny1 hny2 (not_dtLe_iff.mpr hlt)]
    have hyy : (anniv (now.year - 1) birth).year + 1 = now.year := by
      simp only [anniv]
      omega
    rw [hyy]
  · rw [lastBirthday_nonFeb29_ge hb hF now hny1 hny2 hlt]
    refine ⟨anniv now.year birth, rfl, ?_⟩
    rw [nextBirthday_nonFeb29_le hb hF (anniv now.year birth)
        (show (1 : ℕ) ≤ now.year by omega) (show now.year ≤ 9998 from h3) (dtLe_refl _),
      nextBirthday_nonFeb29_le hb hF now hny1 h3 (not_dtLt_iff.mp hlt)]
    rfl

theorem nonFeb29_interval_stable {birth n1 n2 : DT} (hb : wf birth)
    (hF : ¬(birth.month = 2 ∧ birth.day = 29)) (h1 : wf n1) (h2 : wf n2)
    (h12 : dtLe n1 n2) {l x : DT}
    (hl : lastBirthday birth n1 = some l) (hx : nextBirthday birth n1 = some x)
    (hup : dtLt n2 x) :
    lastBirthday birth n2 = lastBirthday birth n1 ∧
      nextBirthday birth n2 = nextBirthday birth n1 := by
  obtain ⟨h1y1, h1y2⟩ := wf_year_range h1
  obtain ⟨h2y1, h2y2⟩ := wf_year_range h2
  rcases next_nonFeb29_cases hb hF h1 hx with ⟨hle, hY, hxv⟩ | ⟨hgt, hxv⟩
  · subst hxv
    have hy2le : n2.year ≤ n1.year + 1 :=
      year_le_of_dtLt (a := n2) (b := anniv (n1.year + 1) birth) hup
    have hy2ge : n1.year ≤ n2.year := year_le_of_dtLe h12
    by_cases h2eq : n2.year = n1.year
    · have hle2 : dtLe (anniv n2.year birth) n2 := by
        rw [h2eq]
        exact dtLe_trans hle h12
      constructor
      · rw [lastBirthday_nonFeb29_ge hb hF n2 h2y1 h2y2 (not_dtLt_iff.mpr hle2),
            lastBirthday_nonFeb29_ge hb hF n1 h1y1 h1y2 (not_dtLt_iff.mpr hle), h2eq]
      · rw [nextBirthday_nonFeb29_le hb hF n2 h2y1 (by omega) hle2,
            nextBirthday_nonFeb29_le hb hF n1 h1y1 hY hle, h2eq]
    · have h2eq2 : n2.year = n1.year + 1 := by omega
      have hlt2 : dtLt n2 (anniv n2.year birth) := by
        rw [h2eq2]
        exact hup
      constructor
      · rw [lastBirthday_nonFeb29_lt hb hF n2 (by omega) h2y2 hlt2,
            lastBirthday_nonFeb29_ge hb hF n1 h1y1 h1y2 (not_dtLt_iff.mpr hle),
            h2eq2, Nat.add_sub_cancel]
      · rw [nextBirthday_nonFeb29_gt hb hF n2 h2y1 h2y2 (not_dtLe_iff.mpr hlt2),
            nextBirthday_nonFeb29_le hb hF n1 h1y1 hY hle, h2eq2]
  · subst hxv
    rcases last_nonFeb29_cases hb hF h1 hl with ⟨hlt1, hY1, hlv⟩ | ⟨hnlt1, hlv⟩
    · have hy2le : n2.year ≤ n1.year :=
        year_le_of_dtLt (a := n2) (b := anniv n1.year birth) hup
      have hy2ge : n1.year ≤ n2.year := year_le_of_dtLe h12
      have h2eq : n2.year = n1.year := by omega
      have hlt2 : dtLt n2 (anniv n2.year birth) := by
        rw [h2eq]
        exact hup
      constructor
      · rw [lastBirthday_nonFeb29_lt hb hF n2 (by omega) h2y2 hlt2,
            lastBirthday_nonFeb29_lt hb hF n1 hY1 h1y2 hlt1, h2eq]
      · rw [nextBirthday_nonFeb29_gt hb hF n2 h2y1 h2y2 (not_dtLe_iff.mpr hlt2),
            nextBirthday_nonFeb29_gt hb hF n1 h1y1 h1y2 hgt, h2eq]
    · exact absurd (not_dtLt_iff.mp hnlt1) hgt

theorem progress_mono_nonFeb29 {birth n1 n2 l x : DT} (hb : valid birth)
    (hF : ¬(birth.month = 2 ∧ birth.day = 29)) (h1 : valid n1) (h2 : valid n2)
    (hl : lastBirthday birth n1 = some l) (hx : nextBirthday birth n1 = some x)
    (h12 : dtLe n1 n2) (hup : dtLt n2 x) {p1 p2 : ℚ}
    (hp1 : progressPercentage birth n1 = some p1)
    (hp2 : progressPercentage birth n2 = some p2) : p1 ≤ p2 := by
  obtain ⟨hsl, hsx⟩ := nonFeb29_interval_stable hb.1 hF h1.1 h2.1 h12 hl hx hup
  have hwl : wf l := (lastBirthday_some_le hl).2
  have hwx : wf x := (nextBirthday_some_gt hx).2
  have hll : dtLe l n1 := (lastBirthday_some_le hl).1
  have hnx : dtLt n1 x := (nextBirthday_some_gt hx).1
  have hlx : dtLt l x := dtLe_lt_trans hll hnx
  have hT : 0 < (toSec x : ℤ) - (toSec l : ℤ) := by
    have := toSec_lt_of_dtLt hwl hwx hlx
    omega
  have hl2 : lastBirthday birth n2 = some l := by rw [hsl]; exact hl
  have hx2 : nextBirthday birth n2 = some x := by rw [hsx]; exact hx
  have e1 := progress_eq_of_pos hx hl hT
  have e2 := progress_eq_of_pos hx2 hl2 hT
  rw [e1] at hp1
  rw [e2] at hp2
  have hp1' : p1 = round4 ((((toSec n1 : ℤ) - (toSec l : ℤ) : ℤ) : ℚ) /
      (((toSec x : ℤ) - (toSec l : ℤ) : ℤ) : ℚ) * 100) := (Option.some.inj hp1).symm
  have hp2' : p2 = round4 ((((toSec n2 : ℤ) - (toSec l : ℤ) : ℤ) : ℚ) /
      (((toSec x : ℤ) - (toSec l : ℤ) : ℤ) : ℚ) * 100) := (Option.some.inj hp2).symm
  rw [hp1', hp2']
  apply round4_mono
  have hTQ : (0 : ℚ) < (((toSec x : ℤ) - (toSec l : ℤ) : ℤ) : ℚ) := by
    exact_mod_cast hT
  have hE : ((toSec n1 : ℤ) - (toSec l : ℤ)) ≤ ((toSec n2 : ℤ) - (toSec l : ℤ)) := by
    have := toSec_le_of_dtLe h1.1 h2.1 h12
    omega
  have hEQ : ((((toSec n1 : ℤ) - (toSec l : ℤ) : ℤ)) : ℚ) ≤
      ((((toSec n2 : ℤ) - (toSec l : ℤ) : ℤ)) : ℚ) := by
    exact_mod_cast hE
  exact mul_le_mul_of_nonneg_right (div_le_div_of_nonneg_right hEQ (le_of_lt hTQ)) (by norm_num)

theorem progress_bounds {birth now l x : DT} (hn : valid now)
    (hl : lastBirthday birth now = some l) (hx : nextBirthday birth now = some x)
    {p : ℚ} (hp : progressPercentage birth now = some p) : 0 ≤ p ∧ p ≤ 100 := by
  have hwl : wf l := (lastBirthday_some_le hl).2
  have hwx : wf x := (nextBirthday_some_gt hx).2
  have hll : dtLe l now := (lastBirthday_some_le hl).1
  have hnx : dtLt now x := (nextBirthday_some_gt hx).1
  have hlx : dtLt l x := dtLe_lt_trans hll hnx
  have hT : 0 < (toSec x : ℤ) - (toSec l : ℤ) := by
    have := toSec_lt_of_dtLt hwl hwx hlx
    omega
  have e := progress_eq_of_pos hx hl hT
  rw [e] at hp
  have hp' : p = round4 ((((toSec now : ℤ) - (toSec l : ℤ) : ℤ) : ℚ) /
      (((toSec x : ℤ) - (toSec l : ℤ) : ℤ) : ℚ) * 100) := (Option.some.inj hp).symm
  have hTQ : (0 : ℚ) < (((toSec x : ℤ) - (toSec l : ℤ) : ℤ) : ℚ) := by
    exact_mod_cast hT
  have hE0 : (0 : ℤ) ≤ (toSec now : ℤ) - (toSec l : ℤ) := by
    have := toSec_le_of_dtLe hwl hn.1 hll
    omega
  have hET : (toSec now : ℤ) - (toSec l : ℤ) ≤ (toSec x : ℤ) - (toSec l : ℤ) := by
    have := toSec_lt_of_dtLt hn.1 hwx hnx
    omega
  have hq0 : (0 : ℚ) ≤ (((toSec now : ℤ) - (toSec l : ℤ) : ℤ) : ℚ) /
      (((toSec x : ℤ) - (toSec l : ℤ) : ℤ) : ℚ) * 100 := by
    apply mul_nonneg _ (by norm_num)
    apply div_nonneg _ (le_of_lt hTQ)
    exact_mod_cast hE0
  have hq100 : (((toSec now : ℤ) - (toSec l : ℤ) : ℤ) : ℚ) /
      (((toSec x : ℤ) - (toSec l : ℤ) : ℤ) : ℚ) * 100 ≤ 100 := by
    have hr1 : (((toSec now : ℤ) - (toSec l : ℤ) : ℤ) : ℚ) /
        (((toSec x : ℤ) - (toSec l : ℤ) : ℤ) : ℚ) ≤ 1 := by
      rw [div_le_one hTQ]
      exact_mod_cast hET
    nlinarith
  constructor
  · rw [hp']
    have := round4_mono hq0
    rwa [round4_zero] at this
  · rw [hp']
    have := round4_mono hq100
    rwa [round4_hundred] at this

theorem formatDetailedTime_eq (b : Breakdown) :
    formatDetailedTime b = specJoin (breakdownParts b) := by
  rcases hp : breakdownParts b with _ | ⟨a, _ | ⟨b2, _ | ⟨c, rest⟩⟩⟩ <;>
    simp only [formatDetailedTime, specJoin, hp]

theorem breakdownParts_eq (b : Breakdown) :
    breakdownParts b = if specParts b = [] then ["0 seconds"] else specParts b := by
  rcases Nat.eq_zero_or_pos b.years with hy | hy <;>
  rcases Nat.eq_zero_or_pos b.months with hmo | hmo <;>
  rcases Nat.eq_zero_or_pos b.weeks with hw | hw <;>
  rcases Nat.eq_zero_or_pos b.days with hd | hd <;>
  rcases Nat.eq_zero_or_pos b.hours with hh | hh <;>
  rcases Nat.eq_zero_or_pos b.minutes with hmi | hmi <;>
  rcases Nat.eq_zero_or_pos b.seconds with hs | hs <;>
  simp [breakdownParts, nonSecondParts, specParts, plural, hy, hmo, hw, hd, hh, hmi, hs] <;>
  decide

theorem format_eq_spec (b : Breakdown) :
    formatDetailedTime b = specJoin (specParts b) := by
  rw [formatDetailedTime_eq b, breakdownParts_eq b]
  by_cases h : specParts b = []
  · rw [if_pos h, h]
    rfl
  · rw [if_neg h]

/-- C1 counterexample: at the valid pair (birth 1996-06-15, now 0001-01-01)
`lastAnniversary` raises an uncaught `ValueError` (the `replace(year=0)`
failure is caught, but the handler rebuilds `datetime(0, 6, 15)`, below
MINYEAR), modeled as `none`, so no value satisfies the claimed bracketing
there. -/
theorem claim_C1_counterexample :
    valid (⟨1996, 6, 15, 0, 0, 0⟩ : DT) ∧ valid (⟨1, 1, 1, 0, 0, 0⟩ : DT) ∧
      lastBirthday ⟨1996, 6, 15, 0, 0, 0⟩ ⟨1, 1, 1, 0, 0, 0⟩ = none := by
  decide

/-- C1 amended: for every valid birth datetime and every valid query
instant `now` with `2 ≤ now.year ≤ 9998` (so that the year ± 1 rebuilds
stay inside MINYEAR..MAXYEAR), both functions return and
`lastAnniversary(birth, now) ≤ now < nextAnniversary(birth, now)`: the
instant exactly equal to an anniversary counts as the last anniversary,
and the next anniversary is strictly after `now`. -/
theorem claim_C1_amended (b n : DT) (hb : valid b) (hn : valid n)
    (h2 : 2 ≤ n.year) (h3 : n.year ≤ 9998) :
    ∃ l x, lastBirthday b n = some l ∧ nextBirthday b n = some x ∧
      dtLe l n ∧ dtLt n x := by
  obtain ⟨x, hx⟩ := nextBirthday_isSome hb.1 n (by omega) h3
  obtain ⟨l, hl⟩ := lastBirthday_isSome hb.1 n h2 (by omega)
  exact ⟨l, x, hl, hx, (lastBirthday_some_le hl).1, (nextBirthday_some_gt hx).1⟩

/-- C1 witness: the bracketing at the concrete pair
(birth 2000-02-29, now 2024-03-01). -/
theorem claim_C1_witness :
    valid (⟨2000, 2, 29, 0, 0, 0⟩ : DT) ∧ valid (⟨2024, 3, 1, 0, 0, 0⟩ : DT) ∧
      2 ≤ (⟨2024, 3, 1, 0, 0, 0⟩ : DT).year ∧ (⟨2024, 3, 1, 0, 0, 0⟩ : DT).year ≤ 9998 ∧
      (∃ l x, lastBirthday ⟨2000, 2, 29, 0, 0, 0⟩ ⟨2024, 3, 1, 0, 0, 0⟩ = some l ∧
        nextBirthday ⟨2000, 2, 29, 0, 0, 0⟩ ⟨2024, 3, 1, 0, 0, 0⟩ = some x ∧
        dtLe l ⟨2024, 3, 1, 0, 0, 0⟩ ∧ dtLt (⟨2024, 3, 1, 0, 0, 0⟩ : DT) x) :=
  ⟨by decide, by decide, by decide, by decide,
    claim_C1_amended ⟨2000, 2, 29, 0, 0, 0⟩ ⟨2024, 3, 1, 0, 0, 0⟩
      (by decide) (by decide) (by decide) (by decide)⟩

/-- C2 counterexample: for birth 2000-02-29, `nextAnniversary` queried at
2024-03-01 returns 2025-02-28 (the Feb-28 fallback), not 2028-02-29 as the
claim states. -/
theorem claim_C2_counterexample :
    nextBirthday ⟨2000, 2, 29, 0, 0, 0⟩ ⟨2024, 3, 1, 0, 0, 0⟩ =
        some ⟨2025, 2, 28, 0, 0, 0⟩ ∧
      ¬ nextBirthday ⟨2000, 2, 29, 0, 0, 0⟩ ⟨2024, 3, 1, 0, 0, 0⟩ =
        some ⟨2028, 2, 29, 0, 0, 0⟩ := by
  decide

/-- C2 amended: for birth 2000-02-29, `nextAnniversary` queried at 2023-03-01
returns 2024-02-29, and queried at 2024-03-01 returns 2025-02-28 (Feb 28 of
the immediately following year, since Feb 29 of 2024 is not strictly after
`now` and 2025 contains no Feb 29; the two-year scan never reaches 2028). -/
theorem claim_C2_amended :
    nextBirthday ⟨2000, 2, 29, 0, 0, 0⟩ ⟨2023, 3, 1, 0, 0, 0⟩ =
        some ⟨2024, 2, 29, 0, 0, 0⟩ ∧
      nextBirthday ⟨2000, 2, 29, 0, 0, 0⟩ ⟨2024, 3, 1, 0, 0, 0⟩ =
        some ⟨2025, 2, 28, 0, 0, 0⟩ := by
  decide

/-- C3 counterexample: for the Feb-29 birth 2000-02-29 and
now = 2025-03-15 (not an anniversary instant),
`nextAnniversary(birth, lastAnniversary(birth, now))` is 2025-02-28 while
`nextAnniversary(birth, now)` is 2026-02-28, so the claimed continuity
fails. -/
theorem claim_C3_counterexample :
    ¬ isAnniversaryInstant ⟨2000, 2, 29, 0, 0, 0⟩ ⟨2025, 3, 15, 0, 0, 0⟩ ∧
      lastBirthday ⟨2000, 2, 29, 0, 0, 0⟩ ⟨2025, 3, 15, 0, 0, 0⟩ =
        some ⟨2024, 2, 29, 0, 0, 0⟩ ∧
      nextBirthday ⟨2000, 2, 29, 0, 0, 0⟩ ⟨2024, 2, 29, 0, 0, 0⟩ =
        some ⟨2025, 2, 28, 0, 0, 0⟩ ∧
      nextBirthday ⟨2000, 2, 29, 0, 0, 0⟩ ⟨2025, 3, 15, 0, 0, 0⟩ =
        some ⟨2026, 2, 28, 0, 0, 0⟩ ∧
      ¬ nextBirthday ⟨2000, 2, 29, 0, 0, 0⟩ ⟨2024, 2, 29, 0, 0, 0⟩ =
        nextBirthday ⟨2000, 2, 29, 0, 0, 0⟩ ⟨2025, 3, 15, 0, 0, 0⟩ := by
  decide

/-- C3 amended: for every valid birth datetime that is not Feb 29 and every
valid `now` with `2 ≤ now.year ≤ 9998` that is not itself an anniversary
instant, `nextAnniversary(birth, lastAnniversary(birth, now)) =
nextAnniversary(birth, now)` (continuity across the lower boundary). -/
theorem claim_C3_amended (b n : DT) (hb : valid b)
    (hF : ¬(b.month = 2 ∧ b.day = 29)) (hn : valid n)
    (h2 : 2 ≤ n.year) (h3 : n.year ≤ 9998)
    (_hA : ¬ isAnniversaryInstant b n) :
    ∃ l, lastBirthday b n = some l ∧ nextBirthday b l = nextBirthday b n :=
  nonFeb29_continuity hb.1 hF hn.1 h2 h3

/-- C3 witness: continuity at (birth 1996-06-15, now 2024-03-01). -/
theorem claim_C3_witness :
    valid (⟨1996, 6, 15, 0, 0, 0⟩ : DT) ∧
      ¬((⟨1996, 6, 15, 0, 0, 0⟩ : DT).month = 2 ∧
        (⟨1996, 6, 15, 0, 0, 0⟩ : DT).day = 29) ∧
      valid (⟨2024, 3, 1, 0, 0, 0⟩ : DT) ∧
      2 ≤ (⟨2024, 3, 1, 0, 0, 0⟩ : DT).year ∧ (⟨2024, 3, 1, 0, 0, 0⟩ : DT).year ≤ 9998 ∧
      ¬ isAnniversaryInstant ⟨1996, 6, 15, 0, 0, 0⟩ ⟨2024, 3, 1, 0, 0, 0⟩ ∧
      (∃ l, lastBirthday ⟨1996, 6, 15, 0, 0, 0⟩ ⟨2024, 3, 1, 0, 0, 0⟩ = some l ∧
        nextBirthday ⟨1996, 6, 15, 0, 0, 0⟩ l =
          nextBirthday ⟨1996, 6, 15, 0, 0, 0⟩ ⟨2024, 3, 1, 0, 0, 0⟩) :=
  ⟨by decide, by decide, by decide, by decide, by decide, by decide,
    claim_C3_amended ⟨1996, 6, 15, 0, 0, 0⟩ ⟨2024, 3, 1, 0, 0, 0⟩
      (by decide) (by decide) (by decide) (by decide) (by decide) (by decide)⟩

/-- C4 counterexample: for the Feb-29 birth 2000-02-29, with
n1 = 2024-12-31 and n2 = 2025-01-01 both lying in
[lastAnniversary(n1), nextAnniversary(n1)) = [2024-02-29, 2025-02-28) and
n1 ≤ n2, the progress percentage drops from 83.8356 to 42.0548, refuting
the claimed monotonicity (`nextAnniversary` changes inside the interval). -/
theorem claim_C4_counterexample :
    dtLe (⟨2024, 12, 31, 0, 0, 0⟩ : DT) ⟨2025, 1, 1, 0, 0, 0⟩ ∧
      lastBirthday ⟨2000, 2, 29, 0, 0, 0⟩ ⟨2024, 12, 31, 0, 0, 0⟩ =
        some ⟨2024, 2, 29, 0, 0, 0⟩ ∧
      nextBirthday ⟨2000, 2, 29, 0, 0, 0⟩ ⟨2024, 12, 31, 0, 0, 0⟩ =
        some ⟨2025, 2, 28, 0, 0, 0⟩ ∧
      dtLe (⟨2024, 2, 29, 0, 0, 0⟩ : DT) ⟨2024, 12, 31, 0, 0, 0⟩ ∧
      dtLt (⟨2025, 1, 1, 0, 0, 0⟩ : DT) ⟨2025, 2, 28, 0, 0, 0⟩ ∧
      progressPercentage ⟨2000, 2, 29, 0, 0, 0⟩ ⟨2024, 12, 31, 0, 0, 0⟩ =
        some (209589 / 2500) ∧
      progressPercentage ⟨2000, 2, 29, 0, 0, 0⟩ ⟨2025, 1, 1, 0, 0, 0⟩ =
        some (105137 / 2500) ∧
      (105137 / 2500 : ℚ) < 209589 / 2500 := by
  refine ⟨by decide, by decide, by decide, by decide, by decide, ?_, ?_, by norm_num⟩
  · have hx : nextBirthday ⟨2000, 2, 29, 0, 0, 0⟩ ⟨2024, 12, 31, 0, 0, 0⟩ =
        some ⟨2025, 2, 28, 0, 0, 0⟩ := by decide
    have hl : lastBirthday ⟨2000, 2, 29, 0, 0, 0⟩ ⟨2024, 12, 31, 0, 0, 0⟩ =
        some ⟨2024, 2, 29, 0, 0, 0⟩ := by decide
    have hT : (0 : ℤ) < (toSec (⟨2025, 2, 28, 0, 0, 0⟩ : DT) : ℤ) -
        (toSec (⟨2024, 2, 29, 0, 0, 0⟩ : DT) : ℤ) := by decide
    rw [progress_eq_of_pos hx hl hT]
    rw [show ((toSec (⟨2024, 12, 31, 0, 0, 0⟩ : DT) : ℤ) -
        (toSec (⟨2024, 2, 29, 0, 0, 0⟩ : DT) : ℤ)) = 26438400 from by decide]
    rw [show ((toSec (⟨2025, 2, 28, 0, 0, 0⟩ : DT) : ℤ) -
        (toSec (⟨2024, 2, 29, 0, 0, 0⟩ : DT) : ℤ)) = 31536000 from by decide]
    norm_num [round4, round_eq]
  · have hx : nextBirthday ⟨2000, 2, 29, 0, 0, 0⟩ ⟨2025, 1, 1, 0, 0, 0⟩ =
        some ⟨2026, 2, 28, 0, 0, 0⟩ := by decide
    have hl : lastBirthday ⟨2000, 2, 29, 0, 0, 0⟩ ⟨2025, 1, 1, 0, 0, 0⟩ =
        some ⟨2024, 2, 29, 0, 0, 0⟩ := by decide
    have hT : (0 : ℤ) < (toSec (⟨2026, 2, 28, 0, 0, 0⟩ : DT) : ℤ) -
        (toSec (⟨2024, 2, 29, 0, 0, 0⟩ : DT) : ℤ) := by decide
    rw [progress_eq_of_pos hx hl hT]
    rw [show ((toSec (⟨2025, 1, 1, 0, 0, 0⟩ : DT) : ℤ) -
        (toSec (⟨2024, 2, 29, 0, 0, 0⟩ : DT) : ℤ)) = 26524800 from by decide]
    rw [show ((toSec (⟨2026, 2, 28, 0, 0, 0⟩ : DT) : ℤ) -
        (toSec (⟨2024, 2, 29, 0, 0, 0⟩ : DT) : ℤ)) = 63072000 from by decide]
    norm_num [round4, round_eq]

/-- C4 amended: for every valid non-Feb-29 birth and every pair of valid
instants n1 ≤ n2 lying in the interval
[lastAnniversary(birth, n1), nextAnniversary(birth, n1)),
`progressPercentage(birth, n1) ≤ progressPercentage(birth, n2)`. -/
theorem claim_C4_amended (b n1 n2 l x : DT) (p1 p2 : ℚ) (hb : valid b)
    (hF : ¬(b.month = 2 ∧ b.day = 29)) (h1 : valid n1) (h2 : valid n2)
    (hl : lastBirthday b n1 = some l) (hx : nextBirthday b n1 = some x)
    (_hll : dtLe l n1) (h12 : dtLe n1 n2) (hup : dtLt n2 x)
    (hp1 : progressPercentage b n1 = some p1)
    (hp2 : progressPercentage b n2 = some p2) : p1 ≤ p2 :=
  progress_mono_nonFeb29 hb hF h1 h2 hl hx h12 hup hp1 hp2

/-- Concrete progress value used by the C4 witness. -/
theorem c4_progress_value :
    progressPercentage ⟨1996, 6, 15, 0, 0, 0⟩ ⟨2024, 7, 1, 0, 0, 0⟩ =
      some (10959 / 2500) := by
  have hx : nextBirthday ⟨1996, 6, 15, 0, 0, 0⟩ ⟨2024, 7, 1, 0, 0, 0⟩ =
      some ⟨2025, 6, 15, 0, 0, 0⟩ := by decide
  have hl : lastBirthday ⟨1996, 6, 15, 0, 0, 0⟩ ⟨2024, 7, 1, 0, 0, 0⟩ =
      some ⟨2024, 6, 15, 0, 0, 0⟩ := by decide
  have hT : (0 : ℤ) < (toSec (⟨2025, 6, 15, 0, 0, 0⟩ : DT) : ℤ) -
      (toSec (⟨2024, 6, 15, 0, 0, 0⟩ : DT) : ℤ) := by decide
  rw [progress_eq_of_pos hx hl hT]
  rw [show ((toSec (⟨2024, 7, 1, 0, 0, 0⟩ : DT) : ℤ) -
      (toSec (⟨2024, 6, 15, 0, 0, 0⟩ : DT) : ℤ)) = 1382400 from by decide]
  rw [show ((toSec (⟨2025, 6, 15, 0, 0, 0⟩ : DT) : ℤ) -
      (toSec (⟨2024, 6, 15, 0, 0, 0⟩ : DT) : ℤ)) = 31536000 from by decide]
  norm_num [round4, round_eq]

/-- C4 witness: the amended monotonicity applied at
(birth 1996-06-15, n1 = n2 = 2024-07-01). -/
theorem claim_C4_witness :
    valid (⟨1996, 6, 15, 0, 0, 0⟩ : DT) ∧
      ¬((⟨1996, 6, 15, 0, 0, 0⟩ : DT).month = 2 ∧
        (⟨1996, 6, 15, 0, 0, 0⟩ : DT).day = 29) ∧
      valid (⟨2024, 7, 1, 0, 0, 0⟩ : DT) ∧
      lastBirthday ⟨1996, 6, 15, 0, 0, 0⟩ ⟨2024, 7, 1, 0, 0, 0⟩ =
        some ⟨2024, 6, 15, 0, 0, 0⟩ ∧
      nextBirthday ⟨1996, 6, 15, 0, 0, 0⟩ ⟨2024, 7, 1, 0, 0, 0⟩ =
        some ⟨2025, 6, 15, 0, 0, 0⟩ ∧
      dtLe (⟨2024, 6, 15, 0, 0, 0⟩ : DT) ⟨2024, 7, 1, 0, 0, 0⟩ ∧
      dtLe (⟨2024, 7, 1, 0, 0, 0⟩ : DT) ⟨2024, 7, 1, 0, 0, 0⟩ ∧
      dtLt (⟨2024, 7, 1, 0, 0, 0⟩ : DT) ⟨2025, 6, 15, 0, 0, 0⟩ ∧
      (10959 / 2500 : ℚ) ≤ 10959 / 2500 :=
  ⟨by decide, by decide, by decide, by decide, by decide, by decide, by decide, by decide,
    claim_C4_amended ⟨1996, 6, 15, 0, 0, 0⟩ ⟨2024, 7, 1, 0, 0, 0⟩ ⟨2024, 7, 1, 0, 0, 0⟩
      ⟨2024, 6, 15, 0, 0, 0⟩ ⟨2025, 6, 15, 0, 0, 0⟩ (10959 / 2500) (10959 / 2500)
      (by decide) (by decide) (by decide) (by decide) (by decide) (by decide)
      (by decide) (by decide) (by decide) c4_progress_value c4_progress_value⟩

/-- C5 counterexample: at the valid pair (birth 1996-06-15, now
0001-01-01) the progress computation raises (the uncaught `ValueError` from
`_calculate_last_birthday` propagates), modeled as `none`, refuting the
claim's "never divides by zero or raises" over every valid now. -/
theorem claim_C5_counterexample :
    valid (⟨1996, 6, 15, 0, 0, 0⟩ : DT) ∧ valid (⟨1, 1, 1, 0, 0, 0⟩ : DT) ∧
      progressPercentage ⟨1996, 6, 15, 0, 0, 0⟩ ⟨1, 1, 1, 0, 0, 0⟩ = none := by
  decide

/-- C5 amended: whenever the anniversary computation returns, the progress
percentage equals `elapsed / total * 100` in seconds rounded to 4 decimal
places and lies in [0, 100]; it is defined (no raise, no division by zero)
for every valid `now` with `2 ≤ now.year ≤ 9998`; the value is always
`progressValue` of the interval/elapsed seconds, and the degenerate guard
returns exactly 0 whenever the interval length is ≤ 0. -/
theorem claim_C5_progress :
    (∀ b n l x : DT, valid b → valid n → lastBirthday b n = some l →
      nextBirthday b n = some x →
      ∃ p, progressPercentage b n = some p ∧
        p = round4 ((((toSec n : ℤ) - (toSec l : ℤ) : ℤ) : ℚ) /
          (((toSec x : ℤ) - (toSec l : ℤ) : ℤ) : ℚ) * 100) ∧
        0 ≤ p ∧ p ≤ 100) ∧
    (∀ b n : DT, valid b → valid n → 2 ≤ n.year → n.year ≤ 9998 →
      (progressPercentage b n).isSome = true) ∧
    (∀ b n l x : DT, lastBirthday b n = some l → nextBirthday b n = some x →
      progressPercentage b n =
        some (progressValue ((toSec x : ℤ) - (toSec l : ℤ))
          ((toSec n : ℤ) - (toSec l : ℤ)))) ∧
    (∀ total elapsed : ℤ, total ≤ 0 → progressValue total elapsed = 0) := by
  refine ⟨?_, ?_, ?_, ?_⟩
  · intro b n l x hb hn hl hx
    have hwl : wf l := (lastBirthday_some_le hl).2
    have hwx : wf x := (nextBirthday_some_gt hx).2
    have hT : 0 < (toSec x : ℤ) - (toSec l : ℤ) := by
      have := toSec_lt_of_dtLt hwl hwx
        (dtLe_lt_trans (lastBirthday_some_le hl).1 (nextBirthday_some_gt hx).1)
      omega
    have e := progress_eq_of_pos hx hl hT
    exact ⟨_, e, rfl, progress_bounds hn hl hx e⟩
  · intro b n hb hn h2 h3
    obtain ⟨x, hx⟩ := nextBirthday_isSome hb.1 n (by omega) h3
    obtain ⟨l, hl⟩ := lastBirthday_isSome hb.1 n h2 (by omega)
    rw [progress_eq_value hx hl]
    rfl
  · intro b n l x hl hx
    exact progress_eq_value hx hl
  · intro total elapsed h
    unfold progressValue
    rw [if_neg (by omega)]

/-- C5 witness: the formula and bounds at (birth 1996-06-15,
now 2024-07-01), definedness there, the structural `progressValue` equation
there, and the degenerate zero guard at interval length 0. -/
theorem claim_C5_witness :
    (valid (⟨1996, 6, 15, 0, 0, 0⟩ : DT) ∧ valid (⟨2024, 7, 1, 0, 0, 0⟩ : DT) ∧
      (∃ p, progressPercentage ⟨1996, 6, 15, 0, 0, 0⟩ ⟨2024, 7, 1, 0, 0, 0⟩ = some p ∧
        p = round4 ((((toSec (⟨2024, 7, 1, 0, 0, 0⟩ : DT) : ℤ) -
            (toSec (⟨2024, 6, 15, 0, 0, 0⟩ : DT) : ℤ) : ℤ) : ℚ) /
          (((toSec (⟨2025, 6, 15, 0, 0, 0⟩ : DT) : ℤ) -
            (toSec (⟨2024, 6, 15, 0, 0, 0⟩ : DT) : ℤ) : ℤ) : ℚ) * 100) ∧
        0 ≤ p ∧ p ≤ 100)) ∧
    (progressPercentage ⟨1996, 6, 15, 0, 0, 0⟩ ⟨2024, 7, 1, 0, 0, 0⟩).isSome = true ∧
    progressPercentage ⟨1996, 6, 15, 0, 0, 0⟩ ⟨2024, 7, 1, 0, 0, 0⟩ =
      some (progressValue
        ((toSec (⟨2025, 6, 15, 0, 0, 0⟩ : DT) : ℤ) -
          (toSec (⟨2024, 6, 15, 0, 0, 0⟩ : DT) : ℤ))
        ((toSec (⟨2024, 7, 1, 0, 0, 0⟩ : DT) : ℤ) -
          (toSec (⟨2024, 6, 15, 0, 0, 0⟩ : DT) : ℤ))) ∧
    ((0 : ℤ) ≤ 0 ∧ progressValue 0 5 = 0) :=
  ⟨⟨by decide, by decide,
      claim_C5_progress.1 ⟨1996, 6, 15, 0, 0, 0⟩ ⟨2024, 7, 1, 0, 0, 0⟩
        ⟨2024, 6, 15, 0, 0, 0⟩ ⟨2025, 6, 15, 0, 0, 0⟩
        (by decide) (by decide) (by decide) (by decide)⟩,
    claim_C5_progress.2.1 ⟨1996, 6, 15, 0, 0, 0⟩ ⟨2024, 7, 1, 0, 0, 0⟩
      (by decide) (by decide) (by decide) (by decide),
    claim_C5_progress.2.2.1 ⟨1996, 6, 15, 0, 0, 0⟩ ⟨2024, 7, 1, 0, 0, 0⟩
      ⟨2024, 6, 15, 0, 0, 0⟩ ⟨2025, 6, 15, 0, 0, 0⟩ (by decide) (by decide),
    ⟨by decide, claim_C5_progress.2.2.2 0 5 (by decide)⟩⟩

/-- C6: for every non-negative span (in microseconds, the resolution of
`timedelta`), `decompose` returns exactly the div/mod split the claim
states, with `totalDays = micros / 1 day` and `totalSeconds =
micros / 1 second`, the hours/minutes/seconds fields derived from
`totalSeconds` alone, and `totalDays = totalSeconds div 86400`. -/
theorem claim_C6_decompose (micros : ℕ) :
    (decompose micros).years = micros / 86400000000 / 365 ∧
    (decompose micros).months = micros / 86400000000 % 365 / 30 ∧
    (decompose micros).weeks = micros / 86400000000 % 365 % 30 / 7 ∧
    (decompose micros).days = micros / 86400000000 % 365 % 30 % 7 ∧
    (decompose micros).hours = micros / 1000000 % 86400 / 3600 ∧
    (decompose micros).minutes = micros / 1000000 % 3600 / 60 ∧
    (decompose micros).seconds = micros / 1000000 % 60 ∧
    micros / 86400000000 = micros / 1000000 / 86400 := by
  refine ⟨rfl, rfl, rfl, rfl, rfl, rfl, rfl, ?_⟩
  rw [Nat.div_div_eq_div_mul]

/-- C7: `format` agrees with the specification's description (non-zero
fields in order with exact pluralization, joined by the stated rules, with
the all-zero case rendered "0 seconds"), never fails on any breakdown, and
in particular the 90061-second span formats as
"1 day, 1 hour, 1 minute, and 1 second". -/
theorem claim_C7_format :
    (∀ b : Breakdown, formatDetailedTime b = specJoin (specParts b)) ∧
    formatDetailedTime (decompose 90061000000) =
      "1 day, 1 hour, 1 minute, and 1 second" ∧
    formatDetailedTime ⟨0, 0, 0, 0, 0, 0, 0⟩ = "0 seconds" :=
  ⟨format_eq_spec, by decide, by decide⟩

/-- C8: the years component of the exact age is
`lastAnniversary.year - birth.year`; in the concrete scenario
birth 1996-06-15, now 2024-06-15 (exact anniversary instant) the last
anniversary is `now`, the next is 2025-06-15, the progress is 0, and the
age years component is 28 — while the naive `now.year - birth.year` would
already read 28 on 2024-06-14, where the code still reports 27. -/
theorem claim_C8_age_years :
    (∀ b n l : DT, lastBirthday b n = some l →
      ageExactYears b n = some (l.year - b.year)) ∧
    (lastBirthday ⟨1996, 6, 15, 0, 0, 0⟩ ⟨2024, 6, 15, 0, 0, 0⟩ =
        some ⟨2024, 6, 15, 0, 0, 0⟩ ∧
      nextBirthday ⟨1996, 6, 15, 0, 0, 0⟩ ⟨2024, 6, 15, 0, 0, 0⟩ =
        some ⟨2025, 6, 15, 0, 0, 0⟩ ∧
      progressPercentage ⟨1996, 6, 15, 0, 0, 0⟩ ⟨2024, 6, 15, 0, 0, 0⟩ = some 0 ∧
      ageExactYears ⟨1996, 6, 15, 0, 0, 0⟩ ⟨2024, 6, 15, 0, 0, 0⟩ = some 28 ∧
      calculateAgeExact ⟨1996, 6, 15, 0, 0, 0⟩ ⟨2024, 6, 15, 0, 0, 0⟩ =
        some "28y 0d 00:00:00" ∧
      ageExactYears ⟨1996, 6, 15, 0, 0, 0⟩ ⟨2024, 6, 14, 0, 0, 0⟩ = some 27 ∧
      (⟨2024, 6, 14, 0, 0, 0⟩ : DT).year - (⟨1996, 6, 15, 0, 0, 0⟩ : DT).year = 28) := by
  constructor
  · intro b n l h
    unfold ageExactYears
    rw [h]
    rfl
  · refine ⟨by decide, by decide, ?_, by decide, by decide, by decide, by decide⟩
    have hx : nextBirthday ⟨1996, 6, 15, 0, 0, 0⟩ ⟨2024, 6, 15, 0, 0, 0⟩ =
        some ⟨2025, 6, 15, 0, 0, 0⟩ := by decide
    have hl : lastBirthday ⟨1996, 6, 15, 0, 0, 0⟩ ⟨2024, 6, 15, 0, 0, 0⟩ =
        some ⟨2024, 6, 15, 0, 0, 0⟩ := by decide
    have hT : (0 : ℤ) < (toSec (⟨2025, 6, 15, 0, 0, 0⟩ : DT) : ℤ) -
        (toSec (⟨2024, 6, 15, 0, 0, 0⟩ : DT) : ℤ) := by decide
    rw [progress_eq_of_pos hx hl hT]
    rw [show ((toSec (⟨2024, 6, 15, 0, 0, 0⟩ : DT) : ℤ) -
        (toSec (⟨2024, 6, 15, 0, 0, 0⟩ : DT) : ℤ)) = 0 from by decide]
    norm_num [round4, round_eq]

/-- C8 witness: the general years formula applied at
(birth 1996-06-15, now 2024-03-01), where the last anniversary is
2023-06-15 and the age years component is 27. -/
theorem claim_C8_witness :
    lastBirthday ⟨1996, 6, 15, 0, 0, 0⟩ ⟨2024, 3, 1, 0, 0, 0⟩ =
        some ⟨2023, 6, 15, 0, 0, 0⟩ ∧
      ageExactYears ⟨1996, 6, 15, 0, 0, 0⟩ ⟨2024, 3, 1, 0, 0, 0⟩ = some 27 :=
  ⟨by decide,
    claim_C8_age_years.1 ⟨1996, 6, 15, 0, 0, 0⟩ ⟨2024, 3, 1, 0, 0, 0⟩
      ⟨2023, 6, 15, 0, 0, 0⟩ (by decide)⟩

/-- C9 counterexample: the claim that every `ValueError` is caught and the
fallback always constructs a valid date is false at the year-range
boundaries: at now = 0001-01-01 the handler rebuild `datetime(0, ...)` (and
for a Feb-29 birth the fallback `datetime(0, 2, 28)`) raises uncaught, and
at now = 9999-07-01 the year + 1 rebuild `datetime(10000, ...)` raises
uncaught; each is modeled as `none` at a valid input. -/
theorem claim_C9_counterexample :
    valid (⟨1, 1, 1, 0, 0, 0⟩ : DT) ∧
      lastBirthday ⟨1996, 6, 15, 0, 0, 0⟩ ⟨1, 1, 1, 0, 0, 0⟩ = none ∧
      lastBirthday ⟨2000, 2, 29, 0, 0, 0⟩ ⟨1, 1, 1, 0, 0, 0⟩ = none ∧
      valid (⟨9999, 7, 1, 0, 0, 0⟩ : DT) ∧
      nextBirthday ⟨1996, 6, 15, 0, 0, 0⟩ ⟨9999, 7, 1, 0, 0, 0⟩ = none := by
  decide

/-- C9 amended: `nextAnniversary` and `lastAnniversary` are total on valid
inputs whose query year lies in 2..9998 (so the year ± 1 rebuilds stay
inside MINYEAR..MAXYEAR), including Feb-29 births and instants before the
birth: both return a result (every internal construction failure in that
range is caught and resolved by the fallback), and the result is always a
well-formed calendar date-time. -/
theorem claim_C9_amended (b n : DT) (hb : valid b) (hn : valid n)
    (h2 : 2 ≤ n.year) (h3 : n.year ≤ 9998) :
    ∃ x l, nextBirthday b n = some x ∧ lastBirthday b n = some l ∧
      wf x ∧ wf l := by
  obtain ⟨x, hx⟩ := nextBirthday_isSome hb.1 n (by omega) h3
  obtain ⟨l, hl⟩ := lastBirthday_isSome hb.1 n h2 (by omega)
  exact ⟨x, l, hx, hl, (nextBirthday_some_gt hx).2, (lastBirthday_some_le hl).2⟩

/-- C9 witness: totality at the Feb-29 birth 2000-02-29 queried at
1999-01-01, an instant before the birth. -/
theorem claim_C9_witness :
    valid (⟨2000, 2, 29, 0, 0, 0⟩ : DT) ∧ valid (⟨1999, 1, 1, 0, 0, 0⟩ : DT) ∧
      2 ≤ (⟨1999, 1, 1, 0, 0, 0⟩ : DT).year ∧ (⟨1999, 1, 1, 0, 0, 0⟩ : DT).year ≤ 9998 ∧
      (∃ x l, nextBirthday ⟨2000, 2, 29, 0, 0, 0⟩ ⟨1999, 1, 1, 0, 0, 0⟩ = some x ∧
        lastBirthday ⟨2000, 2, 29, 0, 0, 0⟩ ⟨1999, 1, 1, 0, 0, 0⟩ = some l ∧
        wf x ∧ wf l) :=
  ⟨by decide, by decide, by decide, by decide,
    claim_C9_amended ⟨2000, 2, 29, 0, 0, 0⟩ ⟨1999, 1, 1, 0, 0, 0⟩
      (by decide) (by decide) (by decide) (by decide)⟩

/-- C10: the decomposition fields satisfy months ≤ 12, weeks ≤ 4, days ≤ 6,
hours ≤ 23, minutes ≤ 59, seconds ≤ 59 (all fields are naturals, hence
non-negative), and months actually reaches 12 for any span whose day count
mod 365 lies in 360..364. -/
theorem claim_C10_breakdown_bounds :
    (∀ micros : ℕ, (decompose micros).months ≤ 12 ∧ (decompose micros).weeks ≤ 4 ∧
      (decompose micros).days ≤ 6 ∧ (decompose micros).hours ≤ 23 ∧
      (decompose micros).minutes ≤ 59 ∧ (decompose micros).seconds ≤ 59) ∧
    (∀ micros : ℕ, 360 ≤ micros / 86400000000 % 365 →
      micros / 86400000000 % 365 ≤ 364 → (decompose micros).months = 12) := by
  constructor
  · intro m
    simp only [decompose]
    refine ⟨?_, ?_, ?_, ?_, ?_, ?_⟩ <;> omega
  · intro m h1 h2
    simp only [decompose]
    omega

/-- C10 witness: a span of 362 days shows a breakdown reading 12 months. -/
theorem claim_C10_witness :
    360 ≤ 362 * 86400000000 / 86400000000 % 365 ∧
      362 * 86400000000 / 86400000000 % 365 ≤ 364 ∧
      (decompose (362 * 86400000000)).months = 12 :=
  ⟨by decide, by decide,
    claim_C10_breakdown_bounds.2 (362 * 86400000000) (by decide) (by decide)⟩

end BirthdayProgress
